import Mathlib

/-!
Shallow embedding of the SLCAN bridge sketched in `src/slcan/slcan.ino`.

The firmware keeps a 32-byte line buffer `slcanBuf` with fill level
`slcanLen` and a bus flag `canOpen`.  Each `loop()` iteration consumes at
most one serial byte (feeding the line assembler, which dispatches a
completed line to `parseSlcan`) and, while the bus is open, polls the CAN
controller once and forwards a received frame through `sendSlcanFrame`.

Machine integers are modelled as `Nat` with explicit `% 2^w` where the C
types truncate (`unsigned long` is 32-bit on the AVR target, `uint8_t` is
8-bit).  C strings are modelled as `List Char` cut at the first NUL; the
fixed 32-byte buffer handed to `parseSlcan` is modelled as a total function
`Nat → Char`, so reads past the line's terminator (which the reference
performs) are visible: positions after the terminating NUL hold the stale
bytes left over from earlier traffic.
-/

namespace Slcan

/-- Value of an ASCII hex digit, `0` on any other character (only applied
to hex digits by `strtoul16`). -/
def hexVal (c : Char) : Nat :=
  if '0' ≤ c ∧ c ≤ '9' then c.toNat - '0'.toNat
  else if 'A' ≤ c ∧ c ≤ 'F' then c.toNat - 'A'.toNat + 10
  else if 'a' ≤ c ∧ c ≤ 'f' then c.toNat - 'a'.toNat + 10
  else 0

/-- Is `c` an ASCII hex digit (either case)? -/
def isHexDig (c : Char) : Bool :=
  ('0' ≤ c && c ≤ '9') || ('A' ≤ c && c ≤ 'F') || ('a' ≤ c && c ≤ 'f')

/-- C `isspace` on the ASCII range: space and the control characters 9–13. -/
def isSpaceC (c : Char) : Bool :=
  c == ' ' || (9 ≤ c.toNat && c.toNat ≤ 13)

/-- `ULONG_MAX` of the AVR target, where `unsigned long` is 32 bits. -/
def ULONG_MAX : Nat := 2 ^ 32 - 1

/-- Value of the longest leading run of hex digits of `s`. -/
def hexRunVal (s : List Char) : Nat :=
  (s.takeWhile isHexDig).foldl (fun a c => a * 16 + hexVal c) 0

/-- `strtoul(s, nullptr, 16)` on the AVR target: skip leading whitespace,
accept one optional sign, accept an optional `0x`/`0X` prefix, convert the
longest run of hex digits (empty run gives 0), clamp to `ULONG_MAX`, and
negate in the 32-bit unsigned type when the sign was `-`. -/
def strtoul16 (s : List Char) : Nat :=
  let s1 := s.dropWhile isSpaceC
  let neg := s1.headD '\x00' == '-'
  let s2 := if s1.headD '\x00' == '-' || s1.headD '\x00' == '+' then s1.tail else s1
  let s3 :=
    if s2.headD '\x00' == '0' && (s2.tail.headD '\x00' == 'x' || s2.tail.headD '\x00' == 'X')
    then s2.tail.tail else s2
  let v := hexRunVal s3
  let v := if 2 ^ 32 ≤ v then ULONG_MAX else v
  if neg then (2 ^ 32 - v % 2 ^ 32) % 2 ^ 32 else v

/-- The C string held by a char array: everything before the first NUL. -/
def cstr (cs : List Char) : List Char :=
  cs.takeWhile (fun c => c ≠ '\x00')

/-- `struct can_frame` (the fields the sketch uses).  `data` models the
`uint8_t data[8]` array as a total function; `parseSlcan` only overwrites
the slots its loop reaches, the rest keep the frame's initial contents. -/
structure can_frame where
  can_id : Nat
  can_dlc : Nat
  data : Nat → Nat

/-- Linux-style extended-frame flag tested by `sendSlcanFrame`. -/
def CAN_EFF_FLAG : Nat := 0x80000000

/-- The transmit branch of `parseSlcan`: id from characters 1–3, dlc from
character 4, then one payload byte per hex pair from character 5 on, the
loop capped at `i < can_dlc && i < 8`.  `init` is the (uninitialised)
content of the stack frame `txFrame.data`. -/
def decodeFrame (init : Nat → Nat) (cmd : Nat → Char) : can_frame :=
  let can_id := strtoul16 (cstr [cmd 1, cmd 2, cmd 3])
  let can_dlc := strtoul16 (cstr [cmd 4]) % 256
  { can_id := can_id
    can_dlc := can_dlc
    data := fun i =>
      if i < min can_dlc 8
      then strtoul16 (cstr [cmd (5 + 2 * i), cmd (6 + 2 * i)]) % 256
      else init i }

/-- Effect of one `parseSlcan` call: the resulting `canOpen` flag, the
bytes written to the serial port, and the frames passed to
`mcp2515.sendMessage`. -/
structure ParseEffect where
  canOpen : Bool
  serial : List Char
  sent : List can_frame

/-- `parseSlcan(cmd)`: dispatch on `cmd[0]`; `O` opens, `C` closes, `t`/`T`
decodes and sends a frame, anything else writes the bell byte; every
recognised command is acknowledged with a carriage return. -/
def parseSlcan (canOpen : Bool) (init : Nat → Nat) (cmd : Nat → Char) : ParseEffect :=
  if cmd 0 = 'O' then
    { canOpen := true, serial := ['\r'], sent := [] }
  else if cmd 0 = 'C' then
    { canOpen := false, serial := ['\r'], sent := [] }
  else if cmd 0 = 'T' ∨ cmd 0 = 't' then
    { canOpen := canOpen, serial := ['\r'], sent := [decodeFrame init cmd] }
  else
    { canOpen := canOpen, serial := ['\x07'], sent := [] }

/-- Uppercase hex digit, as produced by `sprintf "%X"` for one digit. -/
def hexDigU (n : Nat) : Char :=
  if n < 10 then Char.ofNat ('0'.toNat + n) else Char.ofNat ('A'.toNat + n - 10)

/-- `sprintf "%03X"` for arguments below `0x1000` (the sketch masks the
argument with `0x7FF` first). -/
def hex3 (n : Nat) : List Char :=
  [hexDigU (n / 256 % 16), hexDigU (n / 16 % 16), hexDigU (n % 16)]

/-- `sprintf "%1X"` for arguments below 16 (the sketch masks with `0x0F`). -/
def hex1 (n : Nat) : List Char :=
  [hexDigU (n % 16)]

/-- `sprintf "%02X"` for arguments below 256 (`uint8_t` payload bytes). -/
def hex2 (n : Nat) : List Char :=
  [hexDigU (n / 16 % 16), hexDigU (n % 16)]

/-- `sendSlcanFrame(f)`: drop extended frames, otherwise emit
`t` + 3 hex digits of `can_id & 0x7FF` + 1 hex digit of `can_dlc & 0x0F`
+ 2 hex digits per payload byte (loop to `can_dlc`) + `\r`. -/
def sendSlcanFrame (f : can_frame) : List Char :=
  if f.can_id &&& CAN_EFF_FLAG ≠ 0 then []
  else
    't' :: (hex3 (f.can_id &&& 0x7FF) ++ hex1 (f.can_dlc &&& 0x0F) ++
      ((List.range f.can_dlc).map (fun i => hex2 (f.data i % 256))).flatten ++ ['\r'])

/-- Encoder stated from the spec's words (§4.3 / §6): `t`, then the
identifier masked to 11 bits as 3 uppercase zero-padded hex digits, the
data length masked to 4 bits as 1 hex digit, 2 uppercase hex digits per
payload byte for `data_length` bytes, and a terminating carriage return;
a frame with the extended-identifier flag set produces no output.  Kept
separate from `sendSlcanFrame` so the source encoder can be compared
against it. -/
def specHex (w n : Nat) : List Char :=
  let ds := (Nat.digits 16 n).reverse.map (fun d => (Nat.digitChar d).toUpper)
  List.replicate (w - ds.length) '0' ++ ds

/-- Spec-side encoder; see `specHex`. -/
def encodeSpec (f : can_frame) : List Char :=
  if f.can_id &&& CAN_EFF_FLAG ≠ 0 then []
  else
    't' :: (specHex 3 (f.can_id % 0x800) ++ specHex 1 (f.can_dlc % 16) ++
      ((List.range f.can_dlc).map (fun i => specHex 2 (f.data i % 256))).flatten ++ ['\r'])

/-- Arduino `toupper` on a byte: map `a`–`z` to `A`–`Z`, fix everything
else. -/
def toupperC (c : Char) : Char :=
  if 'a' ≤ c ∧ c ≤ 'z' then Char.ofNat (c.toNat - 32) else c

/-- The mutable globals of the sketch: the 32-byte line buffer `slcanBuf`
(modelled as a total function, as only indices below 32 are ever touched),
its fill level `slcanLen`, and the bus flag `canOpen`. -/
structure SysState where
  slcanBuf : Nat → Char
  slcanLen : Nat
  canOpen : Bool

/-- Write one cell of the buffer. -/
def bufWrite (buf : Nat → Char) (i : Nat) (c : Char) : Nat → Char :=
  fun j => if j = i then c else buf j

/-- State at boot: the global `char slcanBuf[32]` is zero-initialised,
`slcanLen = 0`, and `canOpen = true` (line 15 of the sketch). -/
def initState : SysState :=
  { slcanBuf := fun _ => '\x00', slcanLen := 0, canOpen := true }

/-- Result of handling one serial byte. -/
structure StepOut where
  state : SysState
  serial : List Char
  sent : List can_frame

/-- The serial branch of `loop()`: CR/LF with a non-empty buffer
terminates the line with NUL and dispatches it to `parseSlcan`, CR/LF on
an empty buffer does nothing, and any other byte is uppercased and
appended when `slcanLen + 1 < 32`. -/
def feedByte (init : Nat → Nat) (s : SysState) (c : Char) : StepOut :=
  if c = '\r' ∨ c = '\n' then
    if 0 < s.slcanLen then
      let buf := bufWrite s.slcanBuf s.slcanLen '\x00'
      let eff := parseSlcan s.canOpen init buf
      { state := { slcanBuf := buf, slcanLen := 0, canOpen := eff.canOpen }
        serial := eff.serial
        sent := eff.sent }
    else
      { state := s, serial := [], sent := [] }
  else
    if s.slcanLen + 1 < 32 then
      { state := { slcanBuf := bufWrite s.slcanBuf s.slcanLen (toupperC c)
                   slcanLen := s.slcanLen + 1
                   canOpen := s.canOpen }
        serial := [], sent := [] }
    else
      { state := s, serial := [], sent := [] }

/-- Result of one `loop()` iteration: new state, serial bytes written
while handling the command (`serial`), frames sent to the controller
(`sent`), and the encoding of a forwarded received frame (`fwd`, written
to the serial port after `serial`). -/
structure IterOut where
  state : SysState
  serial : List Char
  sent : List can_frame
  fwd : List Char

/-- One `loop()` iteration.  `serIn` is the at-most-one available serial
byte; `canIn` is the frame `mcp2515.readMessage` would deliver.  The
controller is only polled (short-circuit `&&`) when `canOpen` holds after
the serial step, and a received frame is then forwarded through
`sendSlcanFrame`. -/
def loopIter (init : Nat → Nat) (s : SysState) (serIn : Option Char)
    (canIn : Option can_frame) : IterOut :=
  let so := match serIn with
    | some c => feedByte init s c
    | none => { state := s, serial := [], sent := [] }
  let fwd := match canIn with
    | some f => if so.state.canOpen then sendSlcanFrame f else []
    | none => []
  { state := so.state, serial := so.serial, sent := so.sent, fwd := fwd }

/-- Output of a run of `loop()` iterations; `serial` is the full byte
stream written to the transport, in order. -/
structure RunOut where
  state : SysState
  serial : List Char
  sent : List can_frame
  fwd : List Char

/-- Run `loop()` over a list of per-iteration inputs. -/
def runLoop (init : Nat → Nat) (s : SysState) :
    List (Option Char × Option can_frame) → RunOut
  | [] => { state := s, serial := [], sent := [], fwd := [] }
  | step :: rest =>
    let o := loopIter init s step.1 step.2
    let r := runLoop init o.state rest
    { state := r.state
      serial := o.serial ++ o.fwd ++ r.serial
      sent := o.sent ++ r.sent
      fwd := o.fwd ++ r.fwd }

/-- Does serial byte `c` complete a command line in state `s`? -/
def completesLine (s : SysState) (c : Char) : Bool :=
  (c = '\r' || c = '\n') && decide (0 < s.slcanLen)

/-- Does this iteration's serial input complete a line whose first
character is `O` (an open command)? -/
def stepCompletesOpen (s : SysState) (serIn : Option Char) : Bool :=
  match serIn with
  | some c => completesLine s c && (s.slcanBuf 0 == 'O')
  | none => false

/-- No iteration of the run completes an `O` command line. -/
def noOpenDuring (init : Nat → Nat) (s : SysState) :
    List (Option Char × Option can_frame) → Bool
  | [] => true
  | step :: rest =>
    !stepCompletesOpen s step.1 &&
      noOpenDuring init (loopIter init s step.1 step.2).state rest

/-- Model of the fixed buffer `parseSlcan` reads when handed the line
`l`: the line's characters, then the terminating NUL, then the stale
bytes `stale` left in the array by earlier traffic. -/
def lineBuf (l : List Char) (stale : Nat → Char) (i : Nat) : Char :=
  if i < l.length then l.getD i '\x00'
  else if i = l.length then '\x00'
  else stale i

/-! ### Helper lemmas about the hex codec -/

theorem hexDigU_ne_nul : ∀ d < 16, hexDigU d ≠ '\x00' := by decide

theorem hexDigU_isHex : ∀ d < 16, isHexDig (hexDigU d) = true := by decide

theorem hexDigU_not_space : ∀ d < 16, isSpaceC (hexDigU d) = false := by decide

theorem hexDigU_ne_sign : ∀ d < 16, hexDigU d ≠ '-' ∧ hexDigU d ≠ '+' := by decide

theorem hexDigU_ne_x : ∀ d < 16, hexDigU d ≠ 'x' ∧ hexDigU d ≠ 'X' := by decide

theorem hexVal_hexDigU : ∀ d < 16, hexVal (hexDigU d) = d := by decide

/-- `strtoul16` inverts a three-hex-digit field. -/
theorem strtoul16_digits3 (a b c : Nat) (ha : a < 16) (hb : b < 16) (hc : c < 16) :
    strtoul16 (cstr [hexDigU a, hexDigU b, hexDigU c]) = (a * 16 + b) * 16 + c := by
  have hna := hexDigU_ne_nul a ha
  have hnb := hexDigU_ne_nul b hb
  have hnc := hexDigU_ne_nul c hc
  have hsa := hexDigU_not_space a ha
  have hha := hexDigU_isHex a ha
  have hhb := hexDigU_isHex b hb
  have hhc := hexDigU_isHex c hc
  have hma := hexDigU_ne_sign a ha
  have hxb := hexDigU_ne_x b hb
  have hva := hexVal_hexDigU a ha
  have hvb := hexVal_hexDigU b hb
  have hvc := hexVal_hexDigU c hc
  simp [cstr, List.takeWhile, hna, hnb, hnc, strtoul16, List.dropWhile, hsa,
    beq_eq_false_iff_ne, hma.1, hma.2, hxb.1, hxb.2, hexRunVal, hha, hhb, hhc,
    hva, hvb, hvc]
  omega

/-- `strtoul16` inverts a two-hex-digit field. -/
theorem strtoul16_digits2 (a b : Nat) (ha : a < 16) (hb : b < 16) :
    strtoul16 (cstr [hexDigU a, hexDigU b]) = a * 16 + b := by
  have hna := hexDigU_ne_nul a ha
  have hnb := hexDigU_ne_nul b hb
  have hsa := hexDigU_not_space a ha
  have hha := hexDigU_isHex a ha
  have hhb := hexDigU_isHex b hb
  have hma := hexDigU_ne_sign a ha
  have hxb := hexDigU_ne_x b hb
  have hva := hexVal_hexDigU a ha
  have hvb := hexVal_hexDigU b hb
  simp [cstr, List.takeWhile, hna, hnb, strtoul16, List.dropWhile, hsa,
    beq_eq_false_iff_ne, hma.1, hma.2, hxb.1, hxb.2, hexRunVal, hha, hhb,
    hva, hvb]
  omega

/-- `strtoul16` inverts a one-hex-digit field. -/
theorem strtoul16_digits1 (a : Nat) (ha : a < 16) :
    strtoul16 (cstr [hexDigU a]) = a := by
  have hna := hexDigU_ne_nul a ha
  have hsa := hexDigU_not_space a ha
  have hha := hexDigU_isHex a ha
  have hma := hexDigU_ne_sign a ha
  have hva := hexVal_hexDigU a ha
  simp [cstr, List.takeWhile, hna, strtoul16, List.dropWhile, hsa,
    beq_eq_false_iff_ne, hma.1, hma.2, hexRunVal, hha, hva]
  omega

theorem and_2047_of_lt {n : Nat} (h : n < 2048) : n &&& 2047 = n := by
  have := Nat.and_pow_two_sub_one_eq_mod n 11
  norm_num at this
  omega

theorem and_15_of_lt {n : Nat} (h : n < 16) : n &&& 15 = n := by
  have := Nat.and_pow_two_sub_one_eq_mod n 4
  norm_num at this
  omega

theorem and_eff_of_lt {n : Nat} (h : n < 2048) : n &&& CAN_EFF_FLAG = 0 := by
  have h1 : CAN_EFF_FLAG = 2 ^ 31 := by norm_num [CAN_EFF_FLAG]
  rw [h1, Nat.and_two_pow]
  have hb : n.testBit 31 = false := Nat.testBit_lt_two_pow (by omega)
  simp [hb]

/-- Length of a flattened list of two-character chunks. -/
theorem flatten_pairs_length (g : Nat → List Char) (h : ∀ j, (g j).length = 2) :
    ∀ n, (((List.range n).map g).flatten).length = 2 * n := by
  intro n
  induction n with
  | zero => simp
  | succ m ih =>
    rw [List.range_succ, List.map_append, List.flatten_append]
    simp [ih, h]
    omega

/-- Indexing into a flattened list of two-character chunks. -/
theorem flatten_pairs_getD (g : Nat → List Char) (d : Char)
    (h : ∀ j, (g j).length = 2) :
    ∀ n i k, i < n → k < 2 →
      (((List.range n).map g).flatten).getD (2 * i + k) d = (g i).getD k d := by
  intro n
  induction n with
  | zero => intro i k hi _; omega
  | succ m ih =>
    intro i k hi hk
    rw [List.range_succ, List.map_append, List.flatten_append]
    by_cases hc : i < m
    · rw [List.getD_append]
      · exact ih i k hc hk
      · rw [flatten_pairs_length g h m]; omega
    · have him : i = m := by omega
      subst him
      rw [List.getD_append_right]
      · simp [flatten_pairs_length g h i]
      · rw [flatten_pairs_length g h i]; omega

/-! ### C1: encode/decode round trip -/

/-- C1: for every CAN frame with an 11-bit identifier (at most 0x7FF) and
data length between 0 and 8, encoding it with `sendSlcanFrame` and handing
the resulting line to the transmit branch of `parseSlcan` yields the
original frame back: same identifier, same data length, same payload
bytes.  `stale` is the arbitrary content of the line buffer beyond the
terminator and `init` the arbitrary initial content of the decoder's
frame; neither influences the result. -/
theorem slcan_roundtrip (b : Bool) (stale : Nat → Char) (init : Nat → Nat) (f : can_frame)
    (hid : f.can_id ≤ 0x7FF) (hdlc : f.can_dlc ≤ 8)
    (hdata : ∀ i, i < f.can_dlc → f.data i < 256) :
    ∃ g, (parseSlcan b init (lineBuf (sendSlcanFrame f) stale)).sent = [g]
      ∧ g.can_id = f.can_id ∧ g.can_dlc = f.can_dlc
      ∧ (∀ i, i < f.can_dlc → g.data i = f.data i) := by
  have hid' : f.can_id < 2048 := by omega
  have hdlc16 : f.can_dlc < 16 := by omega
  have hg2 : ∀ j, (hex2 (f.data j % 256)).length = 2 := fun j => rfl
  have hplen : (((List.range f.can_dlc).map (fun i => hex2 (f.data i % 256))).flatten).length
      = 2 * f.can_dlc := flatten_pairs_length _ hg2 _
  have hline : sendSlcanFrame f =
      ('t' :: (hex3 f.can_id ++ hex1 f.can_dlc)) ++
        (((List.range f.can_dlc).map (fun i => hex2 (f.data i % 256))).flatten ++ ['\r']) := by
    unfold sendSlcanFrame
    rw [if_neg (by simp [and_eff_of_lt hid']), and_2047_of_lt hid', and_15_of_lt hdlc16]
    simp [List.append_assoc]
  have hLlen : (sendSlcanFrame f).length = 6 + 2 * f.can_dlc := by
    rw [hline]; simp [hex3, hex1, hplen]; omega
  -- prefix characters
  have hpre : ∀ j, j < 5 → lineBuf (sendSlcanFrame f) stale j =
      (['t', hexDigU (f.can_id / 256 % 16), hexDigU (f.can_id / 16 % 16),
        hexDigU (f.can_id % 16), hexDigU (f.can_dlc % 16)]).getD j '\x00' := by
    intro j hj
    rw [lineBuf, if_pos (by omega), hline, List.getD_append]
    · simp [hex3, hex1]
    · simp [hex3, hex1]; omega
  have hc0 : lineBuf (sendSlcanFrame f) stale 0 = 't' := by rw [hpre 0 (by omega)]; rfl
  have hc1 : lineBuf (sendSlcanFrame f) stale 1 = hexDigU (f.can_id / 256 % 16) := by
    rw [hpre 1 (by omega)]; rfl
  have hc2 : lineBuf (sendSlcanFrame f) stale 2 = hexDigU (f.can_id / 16 % 16) := by
    rw [hpre 2 (by omega)]; rfl
  have hc3 : lineBuf (sendSlcanFrame f) stale 3 = hexDigU (f.can_id % 16) := by
    rw [hpre 3 (by omega)]; rfl
  have hc4 : lineBuf (sendSlcanFrame f) stale 4 = hexDigU (f.can_dlc % 16) := by
    rw [hpre 4 (by omega)]; rfl
  -- payload characters
  have hpay : ∀ i k, i < f.can_dlc → k < 2 →
      lineBuf (sendSlcanFrame f) stale (5 + 2 * i + k) =
        (hex2 (f.data i % 256)).getD k '\x00' := by
    intro i k hi hk
    rw [lineBuf, if_pos (by omega), hline, List.getD_append_right]
    · have hlen5 : ('t' :: (hex3 f.can_id ++ hex1 f.can_dlc)).length = 5 := by
        simp [hex3, hex1]
      rw [hlen5]
      have hidx : 5 + 2 * i + k - 5 = 2 * i + k := by omega
      rw [hidx, List.getD_append]
      · exact flatten_pairs_getD _ _ hg2 _ i k hi hk
      · rw [hplen]; omega
    · simp [hex3, hex1]; omega
  have hm16 : ∀ x : Nat, x % 16 < 16 := fun x => Nat.mod_lt _ (by omega)
  have hiddec : strtoul16 (cstr [lineBuf (sendSlcanFrame f) stale 1,
      lineBuf (sendSlcanFrame f) stale 2, lineBuf (sendSlcanFrame f) stale 3]) = f.can_id := by
    rw [hc1, hc2, hc3, strtoul16_digits3 _ _ _ (hm16 _) (hm16 _) (hm16 _)]
    omega
  have hdlcdec : strtoul16 (cstr [lineBuf (sendSlcanFrame f) stale 4]) % 256 = f.can_dlc := by
    rw [hc4, strtoul16_digits1 _ (hm16 _)]
    omega
  refine ⟨decodeFrame init (lineBuf (sendSlcanFrame f) stale), ?_, ?_, ?_, ?_⟩
  · simp [parseSlcan, hc0]
  · simp [decodeFrame, hiddec]
  · simp [decodeFrame, hdlcdec]
  · intro i hi
    simp only [decodeFrame, hdlcdec]
    rw [if_pos (by omega)]
    have hk0 := hpay i 0 hi (by omega)
    have hk1 := hpay i 1 hi (by omega)
    have e0 : 5 + 2 * i + 0 = 5 + 2 * i := by omega
    have e1 : 5 + 2 * i + 1 = 6 + 2 * i := by omega
    rw [e0] at hk0
    rw [e1] at hk1
    rw [hk0, hk1]
    have hgd0 : (hex2 (f.data i % 256)).getD 0 '\x00' = hexDigU (f.data i % 256 / 16 % 16) := rfl
    have hgd1 : (hex2 (f.data i % 256)).getD 1 '\x00' = hexDigU (f.data i % 256 % 16) := rfl
    rw [hgd0, hgd1, strtoul16_digits2 _ _ (hm16 _) (hm16 _)]
    have hx := hdata i hi
    omega

/-- Witness for C1 at frame id 0x123, dlc 3, payload 01 02 03. -/
theorem slcan_roundtrip_witness :
    ∃ g, (parseSlcan true (fun _ => 9)
        (lineBuf (sendSlcanFrame ⟨0x123, 3, fun i => [1, 2, 3].getD i 0⟩) (fun _ => 'Z'))).sent = [g]
      ∧ g.can_id = 0x123 ∧ g.can_dlc = 3
      ∧ (∀ i, i < 3 → g.data i = [1, 2, 3].getD i 0) :=
  slcan_roundtrip true (fun _ => 'Z') (fun _ => 9) ⟨0x123, 3, fun i => [1, 2, 3].getD i 0⟩
    (by norm_num) (by norm_num) (by decide)



/-! ### Further helper lemmas -/

/-- `strtoul` converts nothing (yields 0) when the first character can
start no subject sequence: not a hex digit, not whitespace, not a sign. -/
theorem strtoul16_no_subject (c : Char) (l : List Char)
    (hh : isHexDig c = false) (hs : isSpaceC c = false)
    (hp : c ≠ '+') (hm : c ≠ '-') : strtoul16 (c :: l) = 0 := by
  have hz : c ≠ '0' := by rintro rfl; simp [isHexDig] at hh
  simp [strtoul16, List.dropWhile, hs, beq_eq_false_iff_ne, hp, hm, hz,
    hexRunVal, List.takeWhile, hh]

theorem digitChar_up : ∀ d < 16, (Nat.digitChar d).toUpper = hexDigU d := by decide

theorem digits16_pos {n : Nat} (h : 0 < n) :
    Nat.digits 16 n = n % 16 :: Nat.digits 16 (n / 16) :=
  Nat.digits_def' (by norm_num) h

theorem specHex1_eq (n : Nat) (h : n < 16) : specHex 1 n = hex1 n := by
  rcases Nat.eq_zero_or_pos n with h0 | h0
  · subst h0
    simp [specHex, Nat.digits_zero]
    decide
  · have hd : Nat.digits 16 n = [n] := by
      rw [digits16_pos h0, Nat.mod_eq_of_lt h, Nat.div_eq_of_lt h]
      simp
    simp [specHex, hex1, hd, digitChar_up n h, Nat.mod_eq_of_lt h]

theorem specHex2_eq (n : Nat) (h : n < 256) : specHex 2 n = hex2 n := by
  rcases Nat.eq_zero_or_pos n with h0 | h0
  · subst h0
    simp [specHex, Nat.digits_zero]
    decide
  · by_cases h16 : n < 16
    · have hd : Nat.digits 16 n = [n] := by
        rw [digits16_pos h0, Nat.mod_eq_of_lt h16, Nat.div_eq_of_lt h16]
        simp
      have e1 : n / 16 = 0 := Nat.div_eq_of_lt h16
      simp [specHex, hex2, hd, digitChar_up n h16, Nat.mod_eq_of_lt h16, e1]
      decide
    · have hq1 : 0 < n / 16 := Nat.div_pos (by omega) (by omega)
      have hq2 : n / 16 < 16 := by omega
      have hd : Nat.digits 16 n = [n % 16, n / 16] := by
        rw [digits16_pos h0, digits16_pos hq1, Nat.mod_eq_of_lt hq2,
          Nat.div_eq_of_lt hq2]
        simp
      simp [specHex, hex2, hd, digitChar_up (n % 16) (by omega),
        digitChar_up (n / 16) hq2, Nat.mod_eq_of_lt hq2]

theorem specHex3_eq (n : Nat) (h : n < 4096) : specHex 3 n = hex3 n := by
  rcases Nat.eq_zero_or_pos n with h0 | h0
  · subst h0
    simp [specHex, Nat.digits_zero]
    decide
  · by_cases h16 : n < 16
    · have hd : Nat.digits 16 n = [n] := by
        rw [digits16_pos h0, Nat.mod_eq_of_lt h16, Nat.div_eq_of_lt h16]
        simp
      have e1 : n / 16 = 0 := Nat.div_eq_of_lt h16
      have e2 : n / 256 = 0 := Nat.div_eq_of_lt (by omega)
      simp [specHex, hex3, hd, digitChar_up n h16, Nat.mod_eq_of_lt h16, e1, e2]
      decide
    · by_cases h256 : n < 256
      · have hq1 : 0 < n / 16 := Nat.div_pos (by omega) (by omega)
        have hq2 : n / 16 < 16 := by omega
        have hd : Nat.digits 16 n = [n % 16, n / 16] := by
          rw [digits16_pos h0, digits16_pos hq1, Nat.mod_eq_of_lt hq2,
            Nat.div_eq_of_lt hq2]
          simp
        have e2 : n / 256 = 0 := Nat.div_eq_of_lt (by omega)
        simp [specHex, hex3, hd, digitChar_up (n % 16) (by omega),
          digitChar_up (n / 16) hq2, Nat.mod_eq_of_lt hq2, e2]
        decide
      · have hq1 : 0 < n / 16 := Nat.div_pos (by omega) (by omega)
        have hqq : n / 16 / 16 = n / 256 := by
          rw [Nat.div_div_eq_div_mul]
        have hq2 : 0 < n / 256 := Nat.div_pos (by omega) (by omega)
        have hq3 : n / 256 < 16 := by omega
        have hd : Nat.digits 16 n = [n % 16, n / 16 % 16, n / 256] := by
          rw [digits16_pos h0, digits16_pos hq1, hqq, digits16_pos hq2,
            Nat.mod_eq_of_lt hq3, Nat.div_eq_of_lt hq3]
          simp
        simp [specHex, hex3, hd, digitChar_up (n % 16) (by omega),
          digitChar_up (n / 16 % 16) (by omega), digitChar_up (n / 256) hq3,
          Nat.mod_eq_of_lt hq3]

/-- How `parseSlcan` leaves the `canOpen` flag, by first character. -/
theorem parseSlcan_canOpen (b : Bool) (init : Nat → Nat) (cmd : Nat → Char) :
    ((cmd 0 = 'O' → (parseSlcan b init cmd).canOpen = true)
  ∧ (cmd 0 = 'C' → (parseSlcan b init cmd).canOpen = false))
  ∧ (cmd 0 ≠ 'O' → cmd 0 ≠ 'C' → (parseSlcan b init cmd).canOpen = b) := by
  refine ⟨⟨?_, ?_⟩, ?_⟩
  · intro h; simp [parseSlcan, h]
  · intro h; simp [parseSlcan, h]
  · intro h1 h2
    by_cases ht : cmd 0 = 'T' ∨ cmd 0 = 't' <;> simp [parseSlcan, h1, h2, ht]

/-- A serial byte that does not complete a line starting with `O` keeps a
closed bus closed. -/
theorem feed_closed (init : Nat → Nat) (s : SysState) (c : Char)
    (hc : s.canOpen = false)
    (hno : ¬ (completesLine s c = true ∧ s.slcanBuf 0 = 'O')) :
    (feedByte init s c).state.canOpen = false := by
  by_cases hterm : c = '\r' ∨ c = '\n'
  · by_cases hlen : 0 < s.slcanLen
    · have hcl : completesLine s c = true := by
        rcases hterm with h | h <;> subst h <;> simp [completesLine, hlen]
      have hO : s.slcanBuf 0 ≠ 'O' := fun h => hno ⟨hcl, h⟩
      have hbuf0 : bufWrite s.slcanBuf s.slcanLen '\x00' 0 = s.slcanBuf 0 := by
        simp [bufWrite]
        omega
      by_cases hC : s.slcanBuf 0 = 'C'
      · have hP := ((parseSlcan_canOpen s.canOpen init
            (bufWrite s.slcanBuf s.slcanLen '\x00')).1).2 (by rw [hbuf0]; exact hC)
        rcases hterm with ht | ht <;> subst ht <;> simp [feedByte, hlen, hP]
      · have hP := (parseSlcan_canOpen s.canOpen init
            (bufWrite s.slcanBuf s.slcanLen '\x00')).2
          (by rw [hbuf0]; exact hO) (by rw [hbuf0]; exact hC)
        rw [hc] at hP
        rcases hterm with ht | ht <;> subst ht <;> simp [feedByte, hlen, hc, hP]
    · rcases hterm with ht | ht <;> subst ht <;> simp [feedByte, hlen, hc]
  · push_neg at hterm
    simp [feedByte, hterm.1, hterm.2]
    by_cases hcap : s.slcanLen + 1 < 32 <;> simp [hcap, hc]

/-- One iteration from a closed state that does not complete an `O` line:
the bus stays closed and nothing is forwarded. -/
theorem loopIter_closed (init : Nat → Nat) (s : SysState) (serIn : Option Char)
    (canIn : Option can_frame) (hc : s.canOpen = false)
    (hno : stepCompletesOpen s serIn = false) :
    (loopIter init s serIn canIn).state.canOpen = false
    ∧ (loopIter init s serIn canIn).fwd = [] := by
  have hstate : (loopIter init s serIn canIn).state.canOpen = false := by
    cases serIn with
    | none => simpa [loopIter] using hc
    | some c =>
      have hno' : ¬ (completesLine s c = true ∧ s.slcanBuf 0 = 'O') := by
        rintro ⟨h1, h2⟩
        simp [stepCompletesOpen, h1, h2] at hno
      simpa [loopIter] using feed_closed init s c hc hno'
  refine ⟨hstate, ?_⟩
  cases canIn with
  | none => cases serIn <;> simp [loopIter]
  | some f =>
    cases serIn with
    | none => simp [loopIter] at hstate ⊢; simp [hstate]
    | some c => simp [loopIter] at hstate ⊢; simp [hstate]

/-- While no `O` command line completes, a closed bus forwards nothing. -/
theorem runLoop_closed (init : Nat → Nat) :
    ∀ (steps : List (Option Char × Option can_frame)) (s : SysState),
    s.canOpen = false → noOpenDuring init s steps = true →
    (runLoop init s steps).fwd = [] ∧ (runLoop init s steps).state.canOpen = false := by
  intro steps
  induction steps with
  | nil => intro s hc _; simp [runLoop, hc]
  | cons step rest ih =>
    intro s hc hno
    rw [noOpenDuring] at hno
    simp only [Bool.and_eq_true, Bool.not_eq_true'] at hno
    obtain ⟨hno1, hno2⟩ := hno
    obtain ⟨hso, hsf⟩ := loopIter_closed init s step.1 step.2 hc hno1
    obtain ⟨hr1, hr2⟩ := ih (loopIter init s step.1 step.2).state hso hno2
    rw [runLoop]
    refine ⟨?_, hr2⟩
    simp [hsf, hr1]


/-! ### C2: short transmit lines are not rejected (reference defect) -/

/-- C2: evaluation of the code at the failing input `t0038\r` (assembled
line `T0038`, shorter than the 21 characters its declared data length 8
requires).  The parser does not reject it: it acknowledges with a carriage
return (no bell) and sends a frame, and the payload bytes it decodes come
from beyond the received line — with stale buffer content `A` the second
payload byte is 0xAA, with stale content `B` it is 0xBB. -/
theorem short_transmit_decoded_not_rejected :
    (parseSlcan true (fun _ => 0)
      (lineBuf ['T', '0', '0', '3', '8'] (fun _ => 'A'))).serial = ['\r']
  ∧ ((parseSlcan true (fun _ => 0)
      (lineBuf ['T', '0', '0', '3', '8'] (fun _ => 'A'))).sent.map
        (fun g => (g.can_id, g.can_dlc, g.data 1))) = [(3, 8, 0xAA)]
  ∧ ((parseSlcan true (fun _ => 0)
      (lineBuf ['T', '0', '0', '3', '8'] (fun _ => 'B'))).sent.map
        (fun g => g.data 1)) = [0xBB] := by decide

/-! ### C3: acknowledgment protocol -/

/-- C3: for every completed command line, `parseSlcan` emits exactly one
carriage return when the first character is `O`, `C`, `t` or `T`, and
exactly one bell byte (0x07) and no carriage return when the first
character matches no known command; in the unrecognized case the bus flag
is unchanged and no frame is sent. -/
theorem parseSlcan_ack_protocol (b : Bool) (init : Nat → Nat) (cmd : Nat → Char) :
    ((cmd 0 = 'O' ∨ cmd 0 = 'C' ∨ cmd 0 = 't' ∨ cmd 0 = 'T') →
      (parseSlcan b init cmd).serial = ['\r'])
  ∧ ((cmd 0 ≠ 'O' ∧ cmd 0 ≠ 'C' ∧ cmd 0 ≠ 't' ∧ cmd 0 ≠ 'T') →
      (parseSlcan b init cmd).serial = ['\x07']
      ∧ (parseSlcan b init cmd).canOpen = b
      ∧ (parseSlcan b init cmd).sent = []) := by
  constructor
  · rintro (h | h | h | h) <;> simp [parseSlcan, h]
  · rintro ⟨h1, h2, h3, h4⟩
    simp [parseSlcan, h1, h2, h3, h4]

/-- Witness for C3 on the lines `O` and `Z`. -/
theorem parseSlcan_ack_protocol_witness :
    (parseSlcan true (fun _ => 0) (lineBuf ['O'] (fun _ => 'Q'))).serial = ['\r']
  ∧ (parseSlcan true (fun _ => 0) (lineBuf ['Z'] (fun _ => 'Q'))).serial = ['\x07']
  ∧ (parseSlcan true (fun _ => 0) (lineBuf ['Z'] (fun _ => 'Q'))).canOpen = true
  ∧ (parseSlcan true (fun _ => 0) (lineBuf ['Z'] (fun _ => 'Q'))).sent = [] :=
  ⟨(parseSlcan_ack_protocol true (fun _ => 0) (lineBuf ['O'] (fun _ => 'Q'))).1
      (Or.inl (by decide)),
   ((parseSlcan_ack_protocol true (fun _ => 0) (lineBuf ['Z'] (fun _ => 'Q'))).2
      ⟨by decide, by decide, by decide, by decide⟩).1,
   ((parseSlcan_ack_protocol true (fun _ => 0) (lineBuf ['Z'] (fun _ => 'Q'))).2
      ⟨by decide, by decide, by decide, by decide⟩).2.1,
   ((parseSlcan_ack_protocol true (fun _ => 0) (lineBuf ['Z'] (fun _ => 'Q'))).2
      ⟨by decide, by decide, by decide, by decide⟩).2.2⟩

/-! ### C4: received frames are forwarded only while OPEN -/

/-- C4: from any state with an empty line buffer, after the command line
`C\r` is processed no received frame is forwarded for as long as no `O`
command line completes; and after `O\r` a subsequently received standard
frame is forwarded (its nonempty encoding is written to the transport). -/
theorem rx_forward_gated (init : Nat → Nat) (s : SysState)
    (steps : List (Option Char × Option can_frame)) (f : can_frame)
    (hlen : s.slcanLen = 0) :
    (noOpenDuring init (runLoop init s [(some 'C', none), (some '\r', none)]).state steps
        = true →
      (runLoop init (runLoop init s [(some 'C', none), (some '\r', none)]).state steps).fwd
        = [])
  ∧ (f.can_id &&& CAN_EFF_FLAG = 0 →
      (runLoop init s [(some 'O', none), (some '\r', none), (none, some f)]).fwd
        = sendSlcanFrame f
      ∧ sendSlcanFrame f ≠ []) := by
  constructor
  · intro hno
    have hclosed :
        (runLoop init s [(some 'C', none), (some '\r', none)]).state.canOpen = false := by
      simp [runLoop, loopIter, feedByte, hlen, toupperC, bufWrite, parseSlcan]
    exact (runLoop_closed init steps _ hclosed hno).1
  · intro heff
    have hne : sendSlcanFrame f ≠ [] := by
      unfold sendSlcanFrame
      rw [if_neg (by simp [heff])]
      simp
    refine ⟨?_, hne⟩
    simp [runLoop, loopIter, feedByte, hlen, toupperC, bufWrite, parseSlcan]

/-- Witness for C4: a concrete closed run forwards nothing, a concrete
open run forwards the frame. -/
theorem rx_forward_gated_witness :
    (runLoop (fun _ => 0)
        (runLoop (fun _ => 0) initState [(some 'C', none), (some '\r', none)]).state
        [(none, some ⟨0x123, 1, fun _ => 5⟩), (some 'Z', some ⟨0x123, 1, fun _ => 5⟩)]).fwd
      = []
  ∧ (runLoop (fun _ => 0) initState
        [(some 'O', none), (some '\r', none), (none, some ⟨0x123, 1, fun _ => 5⟩)]).fwd
      = sendSlcanFrame ⟨0x123, 1, fun _ => 5⟩
  ∧ sendSlcanFrame ⟨0x123, 1, fun _ => 5⟩ ≠ [] :=
  ⟨(rx_forward_gated (fun _ => 0) initState
      [(none, some ⟨0x123, 1, fun _ => 5⟩), (some 'Z', some ⟨0x123, 1, fun _ => 5⟩)]
      ⟨0x123, 1, fun _ => 5⟩ rfl).1 (by decide),
   ((rx_forward_gated (fun _ => 0) initState
      [(none, some ⟨0x123, 1, fun _ => 5⟩), (some 'Z', some ⟨0x123, 1, fun _ => 5⟩)]
      ⟨0x123, 1, fun _ => 5⟩ rfl).2 (by decide)).1,
   ((rx_forward_gated (fun _ => 0) initState
      [(none, some ⟨0x123, 1, fun _ => 5⟩), (some 'Z', some ⟨0x123, 1, fun _ => 5⟩)]
      ⟨0x123, 1, fun _ => 5⟩ rfl).2 (by decide)).2⟩

/-! ### C5: transmission is not gated by the bus flag -/

/-- C5: a `t`/`T` line always sends exactly the decoded frame to the
controller, and the sent frames do not depend on whether the bus flag is
open or closed. -/
theorem transmit_not_gated (b b' : Bool) (init : Nat → Nat) (cmd : Nat → Char)
    (h : cmd 0 = 't' ∨ cmd 0 = 'T') :
    (parseSlcan b init cmd).sent = [decodeFrame init cmd]
  ∧ (parseSlcan b init cmd).sent = (parseSlcan b' init cmd).sent := by
  rcases h with h | h <;> simp [parseSlcan, h]

/-- Witness for C5 on the line `t0031AB`, comparing open and closed. -/
theorem transmit_not_gated_witness :
    (parseSlcan true (fun _ => 0)
        (lineBuf ['t', '0', '0', '3', '1', 'A', 'B'] (fun _ => 'Q'))).sent
      = [decodeFrame (fun _ => 0)
          (lineBuf ['t', '0', '0', '3', '1', 'A', 'B'] (fun _ => 'Q'))]
  ∧ (parseSlcan true (fun _ => 0)
        (lineBuf ['t', '0', '0', '3', '1', 'A', 'B'] (fun _ => 'Q'))).sent
      = (parseSlcan false (fun _ => 0)
          (lineBuf ['t', '0', '0', '3', '1', 'A', 'B'] (fun _ => 'Q'))).sent :=
  transmit_not_gated true false (fun _ => 0)
    (lineBuf ['t', '0', '0', '3', '1', 'A', 'B'] (fun _ => 'Q')) (Or.inl (by decide))


/-! ### C6: encoder output format -/

/-- C6: for every frame without the extended-identifier flag,
`sendSlcanFrame` produces exactly the line prescribed by the spec
(`t`, 3 uppercase zero-padded hex digits of the identifier masked to 11
bits, 1 hex digit of the data length masked to 4 bits, 2 uppercase hex
digits per payload byte, one carriage return), here stated as equality
with the spec-side encoder `encodeSpec`; and for every frame with the
extended-identifier flag set it produces no output at all. -/
theorem sendSlcanFrame_spec (f : can_frame) :
    (f.can_id &&& CAN_EFF_FLAG = 0 → sendSlcanFrame f = encodeSpec f)
  ∧ (f.can_id &&& CAN_EFF_FLAG ≠ 0 → sendSlcanFrame f = []) := by
  constructor
  · intro h
    unfold sendSlcanFrame encodeSpec
    rw [if_neg (by simp [h]), if_neg (by simp [h])]
    have h1 : f.can_id &&& 0x7FF = f.can_id % 0x800 := by
      have := Nat.and_pow_two_sub_one_eq_mod f.can_id 11
      norm_num at this
      exact this
    have h2 : f.can_dlc &&& 0x0F = f.can_dlc % 16 := by
      have := Nat.and_pow_two_sub_one_eq_mod f.can_dlc 4
      norm_num at this
      exact this
    have h3 : (fun i => hex2 (f.data i % 256)) = (fun i => specHex 2 (f.data i % 256)) :=
      funext fun i => (specHex2_eq _ (Nat.mod_lt _ (by omega))).symm
    rw [h1, h2, h3, specHex3_eq _ (by omega), specHex1_eq _ (Nat.mod_lt _ (by omega))]
  · intro h
    unfold sendSlcanFrame
    rw [if_pos h]

/-- Witness for C6: the spec's scenario 4 frame encodes to
`t1233010203\r`, and an extended frame encodes to nothing. -/
theorem sendSlcanFrame_spec_witness :
    sendSlcanFrame ⟨0x123, 3, fun i => [1, 2, 3].getD i 0⟩
      = encodeSpec ⟨0x123, 3, fun i => [1, 2, 3].getD i 0⟩
  ∧ sendSlcanFrame ⟨0x123, 3, fun i => [1, 2, 3].getD i 0⟩
      = ['t', '1', '2', '3', '3', '0', '1', '0', '2', '0', '3', '\r']
  ∧ sendSlcanFrame ⟨0x80000000 + 0x123, 3, fun i => [1, 2, 3].getD i 0⟩ = [] :=
  ⟨(sendSlcanFrame_spec ⟨0x123, 3, fun i => [1, 2, 3].getD i 0⟩).1 (by decide),
   by decide,
   (sendSlcanFrame_spec ⟨0x80000000 + 0x123, 3, fun i => [1, 2, 3].getD i 0⟩).2
     (by decide)⟩

/-! ### C7: the decoder reads exactly the declared payload window -/

/-- C7: for a transmit line, `parseSlcan` depends only on the characters
up to index `4 + 2 * min declared_dlc 8` — everything after the
`min declared_dlc 8` payload pairs that start at offset 5 is ignored —
and the sent frame keeps its initial bytes in every slot at or beyond
`min declared_dlc 8` (in particular beyond the 8th slot), while declared
lengths up to 15 are still accepted and acknowledged. -/
theorem transmit_payload_window (b : Bool) (init : Nat → Nat) (cmd cmd' : Nat → Char)
    (h : cmd 0 = 't' ∨ cmd 0 = 'T') :
    ((∀ j, j ≤ 4 + 2 * min (strtoul16 (cstr [cmd 4]) % 256) 8 → cmd' j = cmd j) →
      parseSlcan b init cmd' = parseSlcan b init cmd)
  ∧ (∃ g, (parseSlcan b init cmd).sent = [g]
      ∧ g.can_dlc = strtoul16 (cstr [cmd 4]) % 256
      ∧ (∀ i, 8 ≤ i → g.data i = init i)
      ∧ (∀ i, min (strtoul16 (cstr [cmd 4]) % 256) 8 ≤ i → g.data i = init i)
      ∧ (parseSlcan b init cmd).serial = ['\r']) := by
  have hsent : (parseSlcan b init cmd).sent = [decodeFrame init cmd] := by
    rcases h with h | h <;> simp [parseSlcan, h]
  have hser : (parseSlcan b init cmd).serial = ['\r'] := by
    rcases h with h | h <;> simp [parseSlcan, h]
  constructor
  · intro hagree
    have h0 : cmd' 0 = cmd 0 := hagree 0 (by omega)
    have h4 : cmd' 4 = cmd 4 := hagree 4 (by omega)
    have hdec : decodeFrame init cmd' = decodeFrame init cmd := by
      simp only [decodeFrame, h4, hagree 1 (by omega), hagree 2 (by omega),
        hagree 3 (by omega)]
      congr 1
      funext i
      by_cases hi : i < min (strtoul16 (cstr [cmd 4]) % 256) 8
      · rw [if_pos hi, if_pos hi, hagree (5 + 2 * i) (by omega),
          hagree (6 + 2 * i) (by omega)]
      · rw [if_neg hi, if_neg hi]
    rcases h with h | h <;> simp [parseSlcan, h0, h, hdec]
  · refine ⟨decodeFrame init cmd, hsent, rfl, ?_, ?_, hser⟩
    · intro i hi
      show (if i < min (strtoul16 (cstr [cmd 4]) % 256) 8 then _ else init i) = init i
      rw [if_neg (by omega)]
    · intro i hi
      show (if i < min (strtoul16 (cstr [cmd 4]) % 256) 8 then _ else init i) = init i
      rw [if_neg (by omega)]

/-- Witness for C7: two lines declaring dlc 2 that agree on the first 9
characters but carry different trailing garbage parse identically. -/
theorem transmit_payload_window_witness :
    parseSlcan true (fun _ => 0)
        (lineBuf ['T', '1', '2', '3', '2', 'A', 'A', 'B', 'B', 'Z', 'Z'] (fun _ => 'R'))
      = parseSlcan true (fun _ => 0)
        (lineBuf ['T', '1', '2', '3', '2', 'A', 'A', 'B', 'B', 'X', 'Y'] (fun _ => 'Q')) :=
  (transmit_payload_window true (fun _ => 0)
      (lineBuf ['T', '1', '2', '3', '2', 'A', 'A', 'B', 'B', 'X', 'Y'] (fun _ => 'Q'))
      (lineBuf ['T', '1', '2', '3', '2', 'A', 'A', 'B', 'B', 'Z', 'Z'] (fun _ => 'R'))
      (Or.inr (by decide))).1 (by decide)

/-! ### C8: terminators on an empty line buffer -/

/-- C8: a CR or LF fed to the line assembler while its buffer is empty
completes no line and changes nothing, so two consecutive terminators
(e.g. a CR+LF pair) complete at most one line. -/
theorem terminator_on_empty_buffer (init : Nat → Nat) (s : SysState) (c1 c2 : Char)
    (h1 : c1 = '\r' ∨ c1 = '\n') (h2 : c2 = '\r' ∨ c2 = '\n') :
    (s.slcanLen = 0 →
      feedByte init s c1 = { state := s, serial := [], sent := [] }
      ∧ completesLine s c1 = false)
  ∧ (completesLine s c1).toNat + (completesLine (feedByte init s c1).state c2).toNat ≤ 1 := by
  constructor
  · intro h0
    constructor
    · rcases h1 with h | h <;> subst h <;> simp [feedByte, h0]
    · simp [completesLine, h0]
  · by_cases h0 : 0 < s.slcanLen
    · have hz : (feedByte init s c1).state.slcanLen = 0 := by
        rcases h1 with h | h <;> subst h <;> simp [feedByte, h0]
      have h2z : completesLine (feedByte init s c1).state c2 = false := by
        simp [completesLine, hz]
      rw [h2z]
      cases hcl : completesLine s c1 <;> simp
    · have hlen0 : s.slcanLen = 0 := by omega
      have hst : (feedByte init s c1).state = s := by
        rcases h1 with h | h <;> subst h <;> simp [feedByte, hlen0]
      have e1 : completesLine s c1 = false := by simp [completesLine, hlen0]
      have e2 : completesLine (feedByte init s c1).state c2 = false := by
        rw [hst]; simp [completesLine, hlen0]
      rw [e1, e2]
      simp

/-- Witness for C8: CR then LF on the boot state. -/
theorem terminator_on_empty_buffer_witness :
    (feedByte (fun _ => 0) initState '\r'
        = { state := initState, serial := [], sent := [] }
      ∧ completesLine initState '\r' = false)
  ∧ (completesLine initState '\r').toNat
      + (completesLine (feedByte (fun _ => 0) initState '\r').state '\n').toNat ≤ 1 :=
  ⟨(terminator_on_empty_buffer (fun _ => 0) initState '\r' '\n'
      (Or.inl rfl) (Or.inr rfl)).1 rfl,
   (terminator_on_empty_buffer (fun _ => 0) initState '\r' '\n'
      (Or.inl rfl) (Or.inr rfl)).2⟩

/-! ### C9: the bus flag and its transitions -/

/-- C9: the bus flag is OPEN at boot; a byte that does not complete a line
leaves it unchanged; a completed line starting with `O` sets it OPEN, one
starting with `C` sets it CLOSED, and any other completed line (transmit
or unrecognized) leaves it unchanged. -/
theorem bus_state_transitions (init : Nat → Nat) (s : SysState) (c : Char) :
    initState.canOpen = true
  ∧ (completesLine s c = false → (feedByte init s c).state.canOpen = s.canOpen)
  ∧ (completesLine s c = true → s.slcanBuf 0 = 'O' →
      (feedByte init s c).state.canOpen = true)
  ∧ (completesLine s c = true → s.slcanBuf 0 = 'C' →
      (feedByte init s c).state.canOpen = false)
  ∧ (completesLine s c = true → s.slcanBuf 0 ≠ 'O' → s.slcanBuf 0 ≠ 'C' →
      (feedByte init s c).state.canOpen = s.canOpen) := by
  have hbuf0 : 0 < s.slcanLen → bufWrite s.slcanBuf s.slcanLen '\x00' 0 = s.slcanBuf 0 := by
    intro h
    simp [bufWrite]
    omega
  refine ⟨rfl, ?_, ?_, ?_, ?_⟩
  · intro h
    simp [completesLine] at h
    by_cases hterm : c = '\r' ∨ c = '\n'
    · have hlen : ¬ 0 < s.slcanLen := by
        rcases hterm with ht | ht <;> subst ht <;> simp at h <;> omega
      rcases hterm with ht | ht <;> subst ht <;> simp [feedByte, hlen]
    · push_neg at hterm
      simp [feedByte, hterm.1, hterm.2]
      by_cases hcap : s.slcanLen + 1 < 32 <;> simp [hcap]
  · intro h hO
    simp [completesLine] at h
    obtain ⟨hterm, hlen⟩ := h
    have hP := ((parseSlcan_canOpen s.canOpen init
        (bufWrite s.slcanBuf s.slcanLen '\x00')).1).1 (by rw [hbuf0 hlen]; exact hO)
    rcases hterm with ht | ht <;> subst ht <;> simp [feedByte, hlen, hP]
  · intro h hC
    simp [completesLine] at h
    obtain ⟨hterm, hlen⟩ := h
    have hP := ((parseSlcan_canOpen s.canOpen init
        (bufWrite s.slcanBuf s.slcanLen '\x00')).1).2 (by rw [hbuf0 hlen]; exact hC)
    rcases hterm with ht | ht <;> subst ht <;> simp [feedByte, hlen, hP]
  · intro h hO hC
    simp [completesLine] at h
    obtain ⟨hterm, hlen⟩ := h
    have hP := (parseSlcan_canOpen s.canOpen init
        (bufWrite s.slcanBuf s.slcanLen '\x00')).2
      (by rw [hbuf0 hlen]; exact hO) (by rw [hbuf0 hlen]; exact hC)
    rcases hterm with ht | ht <;> subst ht <;> simp [feedByte, hlen, hP]

/-- Witness for C9 on concrete one-character lines `O`, `C`, `T` and a
non-completing byte. -/
theorem bus_state_transitions_witness :
    initState.canOpen = true
  ∧ (feedByte (fun _ => 0) initState 'x').state.canOpen = true
  ∧ (feedByte (fun _ => 0)
      ⟨fun i => if i = 0 then 'O' else '\x00', 1, false⟩ '\r').state.canOpen = true
  ∧ (feedByte (fun _ => 0)
      ⟨fun i => if i = 0 then 'C' else '\x00', 1, true⟩ '\r').state.canOpen = false
  ∧ (feedByte (fun _ => 0)
      ⟨fun i => if i = 0 then 'T' else '\x00', 1, true⟩ '\r').state.canOpen = true :=
  ⟨rfl,
   (bus_state_transitions (fun _ => 0) initState 'x').2.1 (by decide),
   (bus_state_transitions (fun _ => 0)
      ⟨fun i => if i = 0 then 'O' else '\x00', 1, false⟩ '\r').2.2.1
      (by decide) (by decide),
   (bus_state_transitions (fun _ => 0)
      ⟨fun i => if i = 0 then 'C' else '\x00', 1, true⟩ '\r').2.2.2.1
      (by decide) (by decide),
   (bus_state_transitions (fun _ => 0)
      ⟨fun i => if i = 0 then 'T' else '\x00', 1, true⟩ '\r').2.2.2.2
      (by decide) (by decide) (by decide)⟩

/-! ### C10: no hex validation in the transmit decoder -/

/-- C10 counterexample: in the line `T A1200` the identifier field is the
three characters at offsets 1–3, namely space, `A`, `1`.  Its first
character is not a hex digit, yet the field does not decode to 0: `strtoul`
skips the leading whitespace and yields 0xA1 = 161.  This refutes the
claim that a field with no leading hex digit decodes to 0 (and with it
plain longest-hex-prefix semantics). -/
theorem transmit_field_space_counterexample :
    isHexDig ' ' = false
  ∧ ((parseSlcan true (fun _ => 0)
      (lineBuf ['T', ' ', 'A', '1', '2', '0', '0'] (fun _ => 'Z'))).sent.map
        (fun g => g.can_id)) = [161] := by decide

/-- C10 (amended): the transmit decoder validates nothing: every line
whose first character is `t` or `T` is acknowledged with a carriage return
and a frame is sent; fields are decoded with C `strtoul` base-16 semantics
(optional leading whitespace, optional sign, optional `0X` prefix, then
the longest run of hex digits, an empty run yielding 0), so a field whose
first character is not a hex digit, not whitespace and not a sign decodes
to 0 — and the frame is still sent. -/
theorem transmit_no_hex_validation (b : Bool) (init : Nat → Nat) (cmd : Nat → Char)
    (h : cmd 0 = 't' ∨ cmd 0 = 'T') :
    (parseSlcan b init cmd).serial = ['\r']
  ∧ (∃ g, (parseSlcan b init cmd).sent = [g]
     ∧ ((isHexDig (cmd 1) = false ∧ isSpaceC (cmd 1) = false
          ∧ cmd 1 ≠ '+' ∧ cmd 1 ≠ '-') → g.can_id = 0)) := by
  have hser : (parseSlcan b init cmd).serial = ['\r'] := by
    rcases h with h | h <;> simp [parseSlcan, h]
  have hsent : (parseSlcan b init cmd).sent = [decodeFrame init cmd] := by
    rcases h with h | h <;> simp [parseSlcan, h]
  refine ⟨hser, decodeFrame init cmd, hsent, ?_⟩
  rintro ⟨hh, hs, hp, hm⟩
  show strtoul16 (cstr [cmd 1, cmd 2, cmd 3]) = 0
  by_cases hz : cmd 1 = '\x00'
  · simp [cstr, List.takeWhile, hz]
    decide
  · have hcut : cstr [cmd 1, cmd 2, cmd 3] = cmd 1 :: (cstr [cmd 2, cmd 3]) := by
      simp [cstr, List.takeWhile, hz]
    rw [hcut]
    exact strtoul16_no_subject _ _ hh hs hp hm

/-- Witness for C10 (amended) on the line `TG120`: the identifier field
starts with `G`, which can start no `strtoul` subject. -/
theorem transmit_no_hex_validation_witness :
    (parseSlcan true (fun _ => 0)
        (lineBuf ['T', 'G', '1', '2', '0'] (fun _ => 'Q'))).serial = ['\r']
  ∧ (∃ g, (parseSlcan true (fun _ => 0)
        (lineBuf ['T', 'G', '1', '2', '0'] (fun _ => 'Q'))).sent = [g]
     ∧ ((isHexDig (lineBuf ['T', 'G', '1', '2', '0'] (fun _ => 'Q') 1) = false
          ∧ isSpaceC (lineBuf ['T', 'G', '1', '2', '0'] (fun _ => 'Q') 1) = false
          ∧ lineBuf ['T', 'G', '1', '2', '0'] (fun _ => 'Q') 1 ≠ '+'
          ∧ lineBuf ['T', 'G', '1', '2', '0'] (fun _ => 'Q') 1 ≠ '-') → g.can_id = 0)) :=
  transmit_no_hex_validation true (fun _ => 0)
    (lineBuf ['T', 'G', '1', '2', '0'] (fun _ => 'Q')) (Or.inr (by decide))

end Slcan
